import Mathlib

/-!
Shallow embedding of the clore-scraper pipeline (domain normalization,
validators, retry helper, paginated scraper, data mapper, shop-info fetch and
batched GraphQL sync), together with theorems checking the specification's
claims about it.  JavaScript numbers are modelled as rationals (`ℚ`), with
`Option ℚ` standing for a number that may be NaN; absent/undefined JSON fields
are modelled with `Option`.
-/

deriving instance DecidableEq for Except

attribute [local semireducible] Rat.add Rat.mul Rat.inv Rat.sub

/-- A JavaScript primitive value as it can appear in a scraped JSON field:
a finite number, a string, or undefined/null. -/
inductive JsPrim where
  | num (q : ℚ)
  | str (s : String)
  | undef
deriving DecidableEq, Repr

/-- Numeric value of a list of decimal digit characters. -/
def natOfDigits (ds : List Char) : ℕ :=
  ds.foldl (fun acc c => acc * 10 + (c.toNat - 48)) 0

/-- Parses digits with an optional fractional part, returning the value and
the unconsumed characters; `none` when no digit is consumed (NaN).  This is
the numeric core shared by the models of `parseFloat` and `Number`; exponent
and hexadecimal forms are not modelled (no behaviour under scrutiny uses
them). -/
def parseDecimalCore (cs : List Char) : Option (ℚ × List Char) :=
  let intPart := cs.takeWhile Char.isDigit
  let rest := cs.dropWhile Char.isDigit
  match rest with
  | '.' :: t =>
      let fracPart := t.takeWhile Char.isDigit
      let rest2 := t.dropWhile Char.isDigit
      if intPart.isEmpty && fracPart.isEmpty then none
      else some ((natOfDigits intPart : ℚ) + (natOfDigits fracPart : ℚ) / 10 ^ fracPart.length, rest2)
  | _ => if intPart.isEmpty then none else some ((natOfDigits intPart : ℚ), rest)

/-- `parseDecimalCore` preceded by an optional sign. -/
def parseDecimal (cs : List Char) : Option (ℚ × List Char) :=
  match cs with
  | '-' :: t => (parseDecimalCore t).map (fun p => (-p.1, p.2))
  | '+' :: t => parseDecimalCore t
  | _ => parseDecimalCore cs

/-- Model of JavaScript `parseFloat`: skips leading whitespace, parses the
longest numeric token and ignores any trailing characters; `none` is NaN. -/
def jsParseFloat (s : String) : Option ℚ :=
  (parseDecimal (s.data.dropWhile Char.isWhitespace)).map Prod.fst

/-- Digits after an optional sign, for the model of `parseInt`. -/
def parseIntDigits (t : List Char) : Option ℕ :=
  let ds := t.takeWhile Char.isDigit
  if ds.isEmpty then none else some (natOfDigits ds)

/-- Model of JavaScript `parseInt(s, 10)`: leading whitespace, optional sign,
then the longest digit run; `none` is NaN. -/
def jsParseInt (s : String) : Option Int :=
  let cs := s.data.dropWhile Char.isWhitespace
  match cs with
  | '-' :: t => (parseIntDigits t).map (fun n => -(n : Int))
  | '+' :: t => (parseIntDigits t).map (fun n => (n : Int))
  | _ => (parseIntDigits cs).map (fun n => (n : Int))

/-- Model of JavaScript `String.prototype.trim`: whitespace removed from both
ends. -/
def jsTrim (s : String) : String :=
  ⟨((s.data.dropWhile Char.isWhitespace).reverse.dropWhile Char.isWhitespace).reverse⟩

/-- Model of JavaScript `Number(x)` conversion: the whole (trimmed) string
must be numeric, the empty string converts to 0, undefined to NaN (`none`). -/
def jsNumber : JsPrim → Option ℚ
  | .num q => some q
  | .str s =>
      let t := jsTrim s
      if t = "" then some 0
      else
        match parseDecimal t.data with
        | some (q, []) => some q
        | some (_, _ :: _) => none
        | none => none
  | .undef => none

/-- Rendering of a `JsPrim` as `String(x)` would produce.  The exact JS
formatting of non-integral numbers is abstracted by `Rat`'s `toString`; no
behaviour under scrutiny inspects these strings. -/
def jsToStr : JsPrim → String
  | .num q => toString q
  | .str s => s
  | .undef => "undefined"

/-- JavaScript `v || d` for an optional string value: undefined, null and the
empty string are falsy and select the default. -/
def orElseStr (v : Option String) (d : String) : String :=
  match v with
  | some s => if s = "" then d else s
  | none => d

/-- JavaScript `v || null` for an optional string field: undefined, null and
the empty string all become null. -/
def strOrNull (v : Option String) : Option String :=
  match v with
  | some s => if s = "" then none else some s
  | none => none

/-! ### Validators (src/utils/validators.ts) -/

/-- JavaScript `String.prototype.split` with a single-character separator,
on character lists: splitting the empty string yields one empty part. -/
def splitOnChar (sep : Char) (cs : List Char) : List (List Char) :=
  match cs with
  | [] => [[]]
  | c :: rest =>
      let r := splitOnChar sep rest
      if c = sep then [] :: r
      else
        match r with
        | [] => [[c]]
        | h :: t => (c :: h) :: t

/-- One character of the domain regex class `[a-z0-9]` under the `i` flag. -/
def isAlnumCI (c : Char) : Bool := c.isAlpha || c.isDigit

/-- One label of the domain grammar `[a-z0-9]([a-z0-9-]*[a-z0-9])?`
(case-insensitively): nonempty, alphanumeric at both ends, alphanumerics and
hyphens in between. -/
def isDomainLabel (cs : List Char) : Bool :=
  match cs with
  | [] => false
  | c :: rest =>
      isAlnumCI c &&
      (rest.dropLast.all (fun d => isAlnumCI d || d = '-')) &&
      (match rest.getLast? with
       | some d => isAlnumCI d
       | none => true)

/-- `isValidDomain`: the source's domain regex (one or more dot-terminated
labels followed by a final label of two or more letters, case-insensitive),
decomposed on the dots: at least two labels, every label
before the last matching the label grammar, and a final label of at least two
letters. -/
def isValidDomain (domain : String) : Bool :=
  let parts := splitOnChar '.' domain.data
  match parts.getLast? with
  | none => false
  | some tld =>
      decide (parts.length ≥ 2) &&
      (parts.dropLast.all isDomainLabel) &&
      (decide (tld.length ≥ 2) && tld.all Char.isAlpha)

/-- `isValidPrice`: a number or a string whose `parseFloat` is a non-negative
non-NaN number.  (`String` of a finite number reparses to itself, so the
number case reduces to non-negativity.) -/
def isValidPrice : JsPrim → Bool
  | .num q => decide (0 ≤ q)
  | .str s =>
      match jsParseFloat s with
      | some q => decide (0 ≤ q)
      | none => false
  | .undef => false

/-- `isValidInventory`: a non-negative integer number, or a string whose
`parseInt` is non-negative and not NaN. -/
def isValidInventory : JsPrim → Bool
  | .num q => q.den == 1 && decide (0 ≤ q)
  | .str s =>
      match jsParseInt s with
      | some n => decide (0 ≤ n)
      | none => false
  | .undef => false

/-! ### Domain normalizer (src/services/domainNormalizer.ts) -/

/-- Removes `pre` from the front of `cs` when it is a prefix, once (the model
of a single anchored `replace`). -/
def dropPrefixIf (pre cs : List Char) : List Char :=
  if pre.isPrefixOf cs then cs.drop pre.length else cs

/-- `normalizeDomain`: strips an `http://` or `https://` protocol, leading
slashes, everything from the first `/`, everything from the first `:`, a
literal `www.` prefix; lower-cases, trims, and finally validates with
`isValidDomain`, throwing (modelled as `Except.error`) on failure. -/
def normalizeDomain (input : String) : Except String String :=
  let s1 :=
    if ("https://".data).isPrefixOf input.data then input.data.drop 8
    else if ("http://".data).isPrefixOf input.data then input.data.drop 7
    else input.data
  let s2 := s1.dropWhile (fun c => c = '/')
  let s3 := s2.takeWhile (fun c => c ≠ '/')
  let s4 := s3.takeWhile (fun c => c ≠ ':')
  let s5 := dropPrefixIf "www.".data s4
  let s6 := s5.map Char.toLower
  let s7 := jsTrim ⟨s6⟩
  if isValidDomain s7 then Except.ok s7
  else Except.error ("Invalid domain format: " ++ s7)




/-! ### Retry helper (src/utils/retry.ts) -/

/-- Observable outcome of `retryWithBackoff`: the returned or re-raised
result, the number of the attempt on which the loop ended, the backoff sleeps
performed (in milliseconds, in order), and the final diagnostic log line when
every attempt failed. -/
structure RetryRun (ε α : Type) where
  result : Except ε α
  attemptsMade : ℕ
  sleeps : List ℕ
  failLog : Option String
deriving Repr

/-- The retry loop from attempt number `attempt`, guarded by
`attempt < maxRetries`; the operation is modelled as a function from the
attempt number to that attempt's outcome.  The second argument is structural
fuel: with the fuel `retryWithBackoff` supplies, the zero-fuel branch is
never reached (the guard stops first). -/
def retryGo {ε α : Type} (op : ℕ → Except ε α) (name : String) (maxRetries : ℕ) :
    ℕ → ℕ → RetryRun ε α
  | attempt, 0 =>
      match op attempt with
      | .ok v => ⟨.ok v, attempt, [], none⟩
      | .error e =>
          ⟨.error e, attempt, [],
           some (name ++ " failed after " ++ toString maxRetries ++ " attempts")⟩
  | attempt, f + 1 =>
      match op attempt with
      | .ok v => ⟨.ok v, attempt, [], none⟩
      | .error e =>
          if attempt < maxRetries then
            let rest := retryGo op name maxRetries (attempt + 1) f
            ⟨rest.result, rest.attemptsMade, 2 ^ (attempt - 1) * 1000 :: rest.sleeps,
             rest.failLog⟩
          else
            ⟨.error e, attempt, [],
             some (name ++ " failed after " ++ toString maxRetries ++ " attempts")⟩

/-- `retryWithBackoff`: attempts start at 1. -/
def retryWithBackoff {ε α : Type} (op : ℕ → Except ε α) (name : String)
    (maxRetries : ℕ) : RetryRun ε α :=
  retryGo op name maxRetries 1 maxRetries

/-! ### Source (Shopify) records (src/types/shopify.ts) -/

/-- A raw variant from /products.json, with the fields the pipeline reads;
fields that may be absent from the public feed are `Option`s. -/
structure ShopifyVariant where
  id : Option ℕ
  product_id : ℕ
  title : String
  price : JsPrim
  sku : Option String
  position : Option ℕ
  inventory_policy : Option String
  compare_at_price : Option String
  option1 : Option String
  option2 : Option String
  option3 : Option String
  weight : Option ℚ
  weight_unit : Option String
  inventory_item_id : Option ℕ
  inventory_quantity : JsPrim
  requires_shipping : Option Bool
  tracked : Option Bool
  available : Option Bool
deriving DecidableEq, Repr

/-- A product image (only its `src` is read). -/
structure ShopifyImage where
  src : String
deriving DecidableEq, Repr

/-- Optional SEO block of a raw product. -/
structure ShopifySeo where
  title : Option String
  description : Option String
deriving DecidableEq, Repr

/-- A raw product from /products.json; an absent `title` is modelled by the
empty string (both are falsy where the code checks it). -/
structure ShopifyProduct where
  id : Option ℕ
  title : String
  handle : Option String
  body_html : Option String
  vendor : Option String
  product_type : Option String
  tags : Option String
  status : Option String
  images : Option (List ShopifyImage)
  variants : Option (List ShopifyVariant)
  seo : Option ShopifySeo
deriving DecidableEq, Repr

/-! ### Destination (Clore) records (src/types/cloreDatabase.ts) -/

/-- The mapped product.  The `category` JSON object is represented by the
`name` it carries. -/
structure CloreProduct where
  shopify_id : String
  title : String
  handle : Option String
  description : Option String
  product_type : Option String
  vendor : Option String
  images : List String
  tags : Option (List String)
  status : String
  seo_title : Option String
  seo_description : Option String
  category : Option String
  gender : Option String
deriving DecidableEq, Repr

/-- The mapped variant.  `inventory_quantity` is a JS number, so `Option ℚ`
with `none` for NaN. -/
structure CloreProductVariant where
  shopify_variant_id : String
  shopify_product_id : String
  shopify_inventory_item_id : Option String
  title : String
  sku : Option String
  position : ℕ
  price : String
  compare_at_price : Option String
  cost_price : Option String
  inventory_quantity : Option ℚ
  inventory_tracked : Bool
  inventory_policy : String
  weight : Option ℚ
  weight_unit : String
  requires_shipping : Bool
  option1 : Option String
  option2 : Option String
  option3 : Option String
  available : Bool
  currency : String
deriving DecidableEq, Repr

/-! ### Data mapper (src/services/dataMapper.ts) -/

/-- Truthiness of an optional numeric id: undefined and 0 are falsy. -/
def idFalsy (id : Option ℕ) : Bool := id = none || id = some 0

/-- The missing-field reasons the product mapper collects. -/
def productErrors (product : ShopifyProduct) : List String :=
  (if product.title = "" then ["Missing title"] else []) ++
  (if idFalsy product.id then ["Missing product ID"] else [])

/-- Tag parsing: a truthy tag string is comma-split, every token trimmed,
empty tokens dropped, and an empty result becomes null. -/
def parseTags : Option String → Option (List String)
  | some t =>
      if t = "" then none
      else
        let tagsArray :=
          ((splitOnChar ',' t.data).map (fun cs => jsTrim ⟨cs⟩)).filter
            (fun tag => tag.length > 0)
        if tagsArray.length > 0 then some tagsArray else none
  | none => none

/-- The Clore record the product mapper assembles once validation passed;
the category is derived from `product_type`. -/
def mapProductRecord (product : ShopifyProduct) : CloreProduct :=
  let category :=
    match product.product_type with
    | some pt => if pt = "" then none else some pt
    | none => none
  { shopify_id := toString ((product.id).getD 0),
    title := product.title,
    handle := strOrNull product.handle,
    description := strOrNull product.body_html,
    product_type := strOrNull product.product_type,
    vendor := strOrNull product.vendor,
    images :=
      match product.images with
      | some imgs => imgs.map (fun img => img.src)
      | none => [],
    tags := parseTags product.tags,
    status := orElseStr product.status "active",
    seo_title := strOrNull (product.seo.bind (fun s => s.title)),
    seo_description := strOrNull (product.seo.bind (fun s => s.description)),
    category := category,
    gender := none }

/-- `mapShopifyProductToClore`: validates title and id and assembles the
Clore product.  A thrown `Invalid product` error is modelled as
`Except.error`. -/
def mapShopifyProductToClore (product : ShopifyProduct) : Except String CloreProduct :=
  if (productErrors product).isEmpty then Except.ok (mapProductRecord product)
  else
    Except.error ("Invalid product: " ++ String.intercalate ", " (productErrors product))

/-- The missing-field and invalid-price reasons the variant mapper
collects. -/
def variantErrors (variant : ShopifyVariant) : List String :=
  (if idFalsy variant.id then ["Missing variant ID"] else []) ++
  (if variant.title = "" then ["Missing variant title"] else []) ++
  (if isValidPrice variant.price then [] else ["Invalid price: " ++ jsToStr variant.price])

/-- The inventory default: a quantity failing the inventory validator
(including an absent one) becomes 0, a valid one is converted by `Number`. -/
def defaultInventory (q : JsPrim) : Option ℚ :=
  if isValidInventory q then jsNumber q else some 0

/-- The weight conversion: a truthy positive weight is converted to
kilograms by the unit table, anything else becomes null. -/
def convertWeight (weight : Option ℚ) (unit : Option String) : Option ℚ :=
  match weight with
  | some w =>
      if w ≠ 0 ∧ 0 < w then
        if unit = some "g" ∨ unit = some "grams" then some (w / 1000)
        else if unit = some "kg" then some w
        else if unit = some "lb" then some (w * (453592 / 1000000 : ℚ))
        else if unit = some "oz" then some (w * (283495 / 10000000 : ℚ))
        else some (w / 1000)
      else none
  | none => none

/-- The Clore record the variant mapper assembles once validation passed:
the inventory quantity defaults to 0 when invalid or absent, the weight is
converted to kilograms, booleans default to true unless explicitly false. -/
def mapVariantRecord (variant : ShopifyVariant) (shopifyProductId : ℕ) :
    CloreProductVariant :=
  let price := jsToStr variant.price
  let compareAtPrice := strOrNull variant.compare_at_price
  { shopify_variant_id := toString ((variant.id).getD 0),
        shopify_product_id := toString shopifyProductId,
        shopify_inventory_item_id :=
          match variant.inventory_item_id with
          | some n => if n = 0 then none else some (toString n)
          | none => none,
        title := variant.title,
        sku := strOrNull variant.sku,
        position :=
          match variant.position with
          | some p => if p = 0 then 1 else p
          | none => 1,
        price := price,
        compare_at_price := compareAtPrice,
        cost_price := none,
        inventory_quantity := defaultInventory variant.inventory_quantity,
        inventory_tracked := variant.tracked ≠ some false,
        inventory_policy := orElseStr variant.inventory_policy "deny",
        weight := convertWeight variant.weight variant.weight_unit,
        weight_unit := "kg",
        requires_shipping := variant.requires_shipping ≠ some false,
        option1 := strOrNull variant.option1,
        option2 := strOrNull variant.option2,
        option3 := strOrNull variant.option3,
        available := variant.available ≠ some false,
        currency := "USD" }

/-- `mapShopifyVariantToClore`: validates id, title and price and assembles
the Clore variant.  A thrown `Invalid variant` error is modelled as
`Except.error`. -/
def mapShopifyVariantToClore (variant : ShopifyVariant) (shopifyProductId : ℕ) :
    Except String CloreProductVariant :=
  if (variantErrors variant).isEmpty then
    Except.ok (mapVariantRecord variant shopifyProductId)
  else
    Except.error ("Invalid variant: " ++ String.intercalate ", " (variantErrors variant))

/-! ### Paginated scraper (src/services/shopifyScraper.ts) -/

/-- Outcome of one page fetch after the retry helper: either the retries were
exhausted (the wrapped call threw) or a page of raw products came back (an
absent `products` array is modelled as the empty list, which the code treats
identically). -/
inductive PageFetch where
  | fetchFail (msg : String)
  | fetched (products : List ShopifyProduct)
deriving DecidableEq, Repr

/-- Result of a scrape run: the accumulated raw products and variants, the
per-product failure list (title, error), the reported page count, and the
trace of page numbers actually fetched. -/
structure ScraperResult where
  products : List ShopifyProduct
  variants : List ShopifyVariant
  failedProducts : List (String × String)
  totalPages : ℕ
  pagesFetched : List ℕ
deriving DecidableEq, Repr

/-- Variant validation inside the page loop: a variant is kept when its id
and title are both non-falsy; otherwise it is logged and skipped. -/
def variantOk (v : ShopifyVariant) : Bool :=
  !(idFalsy v.id || v.title = "")

/-- The variants a product contributes: its variant array (when present)
filtered by `variantOk`. -/
def extractVariants (p : ShopifyProduct) : List ShopifyVariant :=
  match p.variants with
  | some vs => vs.filter variantOk
  | none => []

/-- The per-page product loop: a product with a falsy title is recorded as a
failure (with title `Unknown`) and contributes nothing, any other product is
kept together with its valid variants. -/
def processPage (ps : List ShopifyProduct) :
    List ShopifyProduct × List ShopifyVariant × List (String × String) :=
  match ps with
  | [] => ([], [], [])
  | p :: rest =>
      let r := processPage rest
      if p.title = "" then (r.1, r.2.1, ("Unknown", "Product missing title") :: r.2.2)
      else (p :: r.1, extractVariants p ++ r.2.1, r.2.2)

/-- The pagination loop from page `page`, driven by the environment `env`
(the outcome of each page's retried fetch) and a fuel bound standing for the
unbounded `while`; `none` means the fuel ran out before the loop stopped. -/
def scrapeGo (env : ℕ → PageFetch) (fuel page : ℕ) : Option ScraperResult :=
  match fuel with
  | 0 => none
  | fuel' + 1 =>
      match env page with
      | .fetchFail _ => some ⟨[], [], [], page - 1, [page]⟩
      | .fetched products =>
          if products.isEmpty then some ⟨[], [], [], page - 1, [page]⟩
          else
            match scrapeGo env fuel' (page + 1) with
            | none => none
            | some r =>
                let m := processPage products
                some ⟨m.1 ++ r.products, m.2.1 ++ r.variants, m.2.2 ++ r.failedProducts,
                      r.totalPages, page :: r.pagesFetched⟩

/-- `scrapeShopifyProducts`: the loop starts at page 1. -/
def scrapeShopifyProducts (env : ℕ → PageFetch) (fuel : ℕ) : Option ScraperResult :=
  scrapeGo env fuel 1

/-! ### Store detector / shop info (src/services/shopifyDetector.ts) -/

/-- The /shop.json payload fields the code reads. -/
structure ShopJson where
  currency : Option String
  name : Option String
  shop_owner : Option String
deriving DecidableEq, Repr

/-- The storefront GraphQL shop payload fields the branding fetch reads. -/
structure StorefrontShop where
  description : Option String
  brand_logo_url : Option String
  brand_short_description : Option String
deriving DecidableEq, Repr

/-- What `getShopBranding` produces. -/
structure BrandingData where
  logo_url : Option String
  description : Option String
deriving DecidableEq, Repr

/-- What `getShopInfo` produces. -/
structure ShopInfo where
  currency : String
  name : Option String
  shop_owner : Option String
  logo_url : Option String
  description : Option String
deriving DecidableEq, Repr

/-- `getShopBranding` applied to the outcome of its retried storefront
GraphQL request: any thrown error and any response without shop data yield
the empty branding record; otherwise the logo comes from the brand block and
the description from the brand short description, falling back to the shop
description. -/
def getShopBranding (resp : Except String (Option StorefrontShop)) : BrandingData :=
  match resp with
  | .error _ => ⟨none, none⟩
  | .ok none => ⟨none, none⟩
  | .ok (some s) =>
      let logoUrl := strOrNull s.brand_logo_url
      let description :=
        match strOrNull s.brand_short_description with
        | some d => some d
        | none => strOrNull s.description
      ⟨logoUrl, description⟩

/-- `getShopInfo` applied to the outcome of its retried /shop.json request
and to the outcome the branding request would produce: a thrown shop-info
error or a payload without a `shop` object returns the USD default at once
(the branding request is not made); otherwise the currency defaults to USD
when falsy and the branding sub-fetch result is merged in. -/
def getShopInfo (shopResp : Except String (Option ShopJson))
    (brandingResp : Except String (Option StorefrontShop)) : ShopInfo :=
  match shopResp with
  | .error _ => ⟨"USD", none, none, none, none⟩
  | .ok none => ⟨"USD", none, none, none, none⟩
  | .ok (some shop) =>
      let currency := orElseStr shop.currency "USD"
      let branding := getShopBranding brandingResp
      ⟨currency, shop.name, shop.shop_owner,
       strOrNull branding.logo_url, strOrNull branding.description⟩

/-! ### Sync client (src/services/graphqlClient.ts) -/

/-- The scrape output handed to the sync client.  The store payload is passed
through to the remote call unchanged and plays no part in the control flow,
so it is not modelled here. -/
structure ScrapedStoreData where
  products : List CloreProduct
  product_variants : List CloreProductVariant
deriving Repr

/-- The batch size constant of the sync loop. -/
def BATCH_SIZE : ℕ := 20

/-- The batching loop: consecutive slices of `BATCH_SIZE` products.  The
first argument is structural fuel; `batchProducts` supplies the list length,
which is always enough, so the zero-fuel branch is never reached on a
nonempty list. -/
def batchGo : ℕ → List CloreProduct → List (List CloreProduct)
  | _, [] => []
  | 0, ps => [ps]
  | f + 1, ps => ps.take BATCH_SIZE :: batchGo f (ps.drop BATCH_SIZE)

/-- The product batches: consecutive slices of `BATCH_SIZE` products. -/
def batchProducts (ps : List CloreProduct) : List (List CloreProduct) :=
  batchGo ps.length ps

/-- The variants submitted with a batch: those whose parent product id equals
the id of some product of the batch. -/
def variantsForBatch (variants : List CloreProductVariant) (batch : List CloreProduct) :
    List CloreProductVariant :=
  variants.filter (fun v => batch.any (fun p => p.shopify_id == v.shopify_product_id))

/-- The mutation result of one sync batch as reported by the remote. -/
structure SyncMutationResult where
  success : Bool
  message : String
  storeId : Option String
  productsCreated : ℕ
  variantsCreated : ℕ
  errors : Option (List String)
deriving DecidableEq, Repr

/-- One batch's GraphQL response: a response carrying a (possibly empty)
`errors` field, a response without a mutation result, or a mutation result. -/
inductive SyncResponse where
  | gqlErrors (msgs : List String)
  | noMutation
  | mutation (m : SyncMutationResult)
deriving DecidableEq, Repr

/-- The running aggregate of the batch loop. -/
structure SyncAgg where
  storeId : Option String
  productsCreated : ℕ
  variantsCreated : ℕ
  allErrors : List String
deriving DecidableEq, Repr

/-- One iteration of the batch loop: a GraphQL-error response, a missing
mutation result and an unsuccessful mutation each append one batch error
string and skip the accumulation; a successful mutation accumulates the
first truthy store id, the created counts, and any nonempty remote error
list. -/
def processBatchResponse (batchNum : ℕ) (resp : SyncResponse) (acc : SyncAgg) : SyncAgg :=
  match resp with
  | .gqlErrors msgs =>
      { acc with allErrors :=
          acc.allErrors ++
            ["Batch " ++ toString batchNum ++ ": " ++ String.intercalate ", " msgs] }
  | .noMutation =>
      { acc with allErrors :=
          acc.allErrors ++ ["Batch " ++ toString batchNum ++ ": No mutation result"] }
  | .mutation m =>
      if m.success then
        { storeId :=
            match acc.storeId with
            | some s => some s
            | none => strOrNull m.storeId,
          productsCreated := acc.productsCreated + m.productsCreated,
          variantsCreated := acc.variantsCreated + m.variantsCreated,
          allErrors :=
            match m.errors with
            | some es => if es.isEmpty then acc.allErrors else acc.allErrors ++ es
            | none => acc.allErrors }
      else
        { acc with allErrors :=
            acc.allErrors ++ ["Batch " ++ toString batchNum ++ ": " ++ m.message] }

/-- The batch loop over the per-batch responses, numbering batches from
`batchNum`. -/
def syncRunFrom (responses : List SyncResponse) (batchNum : ℕ) (acc : SyncAgg) : SyncAgg :=
  match responses with
  | [] => acc
  | r :: rest => syncRunFrom rest (batchNum + 1) (processBatchResponse batchNum r acc)

/-- The value `syncScrapedStoreAndProducts` returns. -/
structure SyncOutcome where
  success : Bool
  message : String
  result : SyncAgg
deriving DecidableEq, Repr

/-- `syncScrapedStoreAndProducts`: partitions the products into batches, runs
the batch loop against the per-batch responses delivered by `env` (batch `n`
receives `env n`), and reports overall success exactly when the aggregated
error list is empty. -/
def syncScrapedStoreAndProducts (data : ScrapedStoreData) (env : ℕ → SyncResponse) :
    SyncOutcome :=
  let batches := batchProducts data.products
  let responses := (List.range batches.length).map (fun i => env (i + 1))
  let agg := syncRunFrom responses 1 ⟨none, 0, 0, []⟩
  let overallSuccess := agg.allErrors.isEmpty
  { success := overallSuccess,
    message :=
      if overallSuccess then "All batches synced successfully"
      else "Sync completed with " ++ toString agg.allErrors.length ++ " errors",
    result := agg }

/-! ### Specification-side helper functions and concrete demo records -/

/-- Lower-casing of a string, character by character. -/
def lowerStr (s : String) : String := ⟨s.data.map Char.toLower⟩

/-- The lengths of the slices `batchGo` produces, as a function of the input
length alone. -/
def lenChunks : ℕ → ℕ → List ℕ
  | _, 0 => []
  | 0, n => [n]
  | f + 1, n => min BATCH_SIZE n :: lenChunks f (n - BATCH_SIZE)

/-- The batch error strings one response contributes to the aggregate list:
one prefixed string for a GraphQL-error response, a missing mutation result
or an unsuccessful mutation; the remote error list itself for a successful
mutation. -/
def batchErrorStrings (batchNum : ℕ) : SyncResponse → List String
  | .gqlErrors msgs =>
      ["Batch " ++ toString batchNum ++ ": " ++ String.intercalate ", " msgs]
  | .noMutation => ["Batch " ++ toString batchNum ++ ": No mutation result"]
  | .mutation m =>
      if m.success then
        match m.errors with
        | some es => es
        | none => []
      else ["Batch " ++ toString batchNum ++ ": " ++ m.message]

/-- All batch error strings of a response list, numbering batches from `n`. -/
def allBatchErrors : List SyncResponse → ℕ → List String
  | [], _ => []
  | r :: rest, n => batchErrorStrings n r ++ allBatchErrors rest (n + 1)

/-- A response is clean when it carries a successful mutation result with no
remote-reported errors; exactly the responses contributing no error string. -/
def cleanResponse : SyncResponse → Bool
  | .mutation m => m.success && (m.errors.getD []).isEmpty
  | _ => false

/-- A source variant that passes every validation, for concrete instances. -/
def sampleVariant : ShopifyVariant :=
  { id := some 111, product_id := 9, title := "Red / Small",
    price := .str "19.99", sku := some "SKU-1", position := some 2,
    inventory_policy := some "deny", compare_at_price := some "29.99",
    option1 := some "Red", option2 := some "Small", option3 := none,
    weight := some 500, weight_unit := some "g",
    inventory_item_id := some 77, inventory_quantity := .num 3,
    requires_shipping := some true, tracked := some true, available := some true }

/-- What the variant mapper produces on `sampleVariant`. -/
def sampleMappedVariant : CloreProductVariant :=
  { shopify_variant_id := "111", shopify_product_id := "9",
    shopify_inventory_item_id := some "77", title := "Red / Small",
    sku := some "SKU-1", position := 2, price := "19.99",
    compare_at_price := some "29.99", cost_price := none,
    inventory_quantity := some 3, inventory_tracked := true,
    inventory_policy := "deny", weight := some (1 / 2 : ℚ), weight_unit := "kg",
    requires_shipping := true, option1 := some "Red", option2 := some "Small",
    option3 := none, available := true, currency := "USD" }

/-- `sampleVariant` with a negative weight and no recognizable unit. -/
def negWeightVariant : ShopifyVariant :=
  { sampleVariant with weight := some (-5 : ℚ), weight_unit := none }

/-- `sampleVariant` with the admin-only inventory quantity absent. -/
def noInvVariant : ShopifyVariant :=
  { sampleVariant with inventory_quantity := .undef }

/-- A source product that passes every validation, for concrete instances. -/
def sampleProduct : ShopifyProduct :=
  { id := some 9, title := "Demo Tee", handle := some "demo-tee",
    body_html := some "<p>A tee.</p>", vendor := some "Demo Co",
    product_type := some "Shirts", tags := some "red, blue ,,green",
    status := some "active", images := some [⟨"https://img.example.com/1.png"⟩],
    variants := some [sampleVariant], seo := none }

/-- A minimal mapped product, for concrete sync instances. -/
def demoCloreProduct : CloreProduct :=
  { shopify_id := "9", title := "Demo Tee", handle := none, description := none,
    product_type := none, vendor := none, images := [], tags := none,
    status := "active", seo_title := none, seo_description := none,
    category := none, gender := none }

/-- A mapped variant belonging to `demoCloreProduct`, plus one orphan. -/
def demoCloreVariant : CloreProductVariant :=
  { sampleMappedVariant with shopify_product_id := "9" }

/-- A mapped variant whose parent is not among the demo products. -/
def orphanCloreVariant : CloreProductVariant :=
  { sampleMappedVariant with shopify_variant_id := "222", shopify_product_id := "404" }

/-- 45 distinct mapped products, for the batching instance. -/
def demoProducts45 : List CloreProduct :=
  (List.range 45).map (fun j => { demoCloreProduct with shopify_id := toString j })

/-- A single-batch scrape output for the sync counterexample. -/
def demoSyncData : ScrapedStoreData :=
  { products := [demoCloreProduct], product_variants := [demoCloreVariant] }

/-- A response environment whose only batch fails with a remote error list:
the mutation reports failure and carries one remote error string. -/
def failingEnv : ℕ → SyncResponse := fun _ =>
  .mutation
    { success := false, message := "mutation failed", storeId := none,
      productsCreated := 0, variantsCreated := 0, errors := some ["remote error"] }

/-- A storefront branding response that would deliver a logo and description. -/
def brandingDemo : Except String (Option StorefrontShop) :=
  .ok (some { description := some "A fine shop",
              brand_logo_url := some "https://cdn.example.com/logo.png",
              brand_short_description := some "Short desc" })

/-- A raw product with one valid variant, for concrete scraper instances. -/
def demoShopProduct : ShopifyProduct :=
  { sampleProduct with variants := some [sampleVariant] }

/-- A page environment with one nonempty page followed by a failing fetch. -/
def demoPagesEnv : ℕ → PageFetch := fun q =>
  if q = 1 then .fetched [demoShopProduct] else .fetchFail "net down"

/-- The page contents behind `demoPagesEnv`. -/
def demoPages : ℕ → List ShopifyProduct := fun q =>
  if q = 1 then [demoShopProduct] else []

/-- The scraper result on `demoPagesEnv`. -/
def demoScrapeResult : ScraperResult :=
  { products := [demoShopProduct], variants := [sampleVariant],
    failedProducts := [], totalPages := 1, pagesFetched := [1, 2] }

/-- An attempt environment failing once and then succeeding, for the retry
instance. -/
def demoRetryOp : ℕ → Except String ℕ := fun j =>
  if j = 2 then .ok 7 else .error "boom"

/-- What the product mapper produces on `sampleProduct`. -/
def sampleMappedProduct : CloreProduct :=
  { shopify_id := "9", title := "Demo Tee", handle := some "demo-tee",
    description := some "<p>A tee.</p>", product_type := some "Shirts",
    vendor := some "Demo Co", images := ["https://img.example.com/1.png"],
    tags := some ["red", "blue", "green"], status := "active",
    seo_title := none, seo_description := none, category := some "Shirts",
    gender := none }

/-- The optional `www.` decoration of an input to the domain normalizer. -/
def wwwDeco : Bool → List Char
  | true => "www.".data
  | false => []

/-! ### Theorems -/

theorem decide_length_pos (s : String) :
    (decide (s.length > 0)) = (decide (s ≠ "")) := by
  rcases s with ⟨l⟩
  cases l with
  | nil => rfl
  | cons c cs =>
      apply decide_eq_decide.mpr
      constructor
      · intro _ hne
        exact List.noConfusion (congrArg String.data hne)
      · intro _
        simp [String.length]

theorem mapVariant_ok {v : ShopifyVariant} {pid : ℕ} {c : CloreProductVariant}
    (h : mapShopifyVariantToClore v pid = Except.ok c) : mapVariantRecord v pid = c := by
  unfold mapShopifyVariantToClore at h
  by_cases hv : (variantErrors v).isEmpty
  · rw [if_pos hv, Except.ok.injEq] at h
    exact h
  · rw [if_neg hv] at h
    exact Except.noConfusion h

theorem mapProduct_ok {p : ShopifyProduct} {c : CloreProduct}
    (h : mapShopifyProductToClore p = Except.ok c) : mapProductRecord p = c := by
  unfold mapShopifyProductToClore at h
  by_cases hp : (productErrors p).isEmpty
  · rw [if_pos hp, Except.ok.injEq] at h
    exact h
  · rw [if_neg hp] at h
    exact Except.noConfusion h

/-- Claim C5 (counterexample): the claim as stated fails on a negative source
weight: the mapper maps it to null, not to the grams-rule conversion the
claim's `otherwise` branch demands. -/
theorem c5_counterexample :
    (mapShopifyVariantToClore negWeightVariant 9).map CloreProductVariant.weight =
      Except.ok none ∧
    (Except.ok (none : Option ℚ) : Except String (Option ℚ)) ≠
      Except.ok (some ((-5 : ℚ) / 1000)) := by
  decide

/-- Claim C5 (amended): for every variant accepted by the variant mapper, a
weight that is zero, negative or absent maps to null; a positive weight maps
through the unit table (g/grams divide by 1000, kg unchanged, lb times
0.453592, oz times 0.0283495, anything else the grams rule); and the output
weight unit is always the literal kg. -/
theorem c5_weight_rules (v : ShopifyVariant) (pid : ℕ) (c : CloreProductVariant)
    (h : mapShopifyVariantToClore v pid = Except.ok c) :
    ((v.weight = none ∨ ∃ w, v.weight = some w ∧ w ≤ 0) → c.weight = none) ∧
    (∀ w, v.weight = some w → 0 < w →
      c.weight = some
        (if v.weight_unit = some "g" ∨ v.weight_unit = some "grams" then w / 1000
         else if v.weight_unit = some "kg" then w
         else if v.weight_unit = some "lb" then w * (453592 / 1000000 : ℚ)
         else if v.weight_unit = some "oz" then w * (283495 / 10000000 : ℚ)
         else w / 1000)) ∧
    c.weight_unit = "kg" := by
  have hc := mapVariant_ok h
  subst hc
  have hW : (mapVariantRecord v pid).weight = convertWeight v.weight v.weight_unit := rfl
  refine ⟨?_, ?_, rfl⟩
  · rintro (hnone | ⟨w, hw, hle⟩)
    · rw [hW, hnone]
      rfl
    · rw [hW]
      simp only [convertWeight, hw]
      rw [if_neg]
      rintro ⟨_, hpos⟩
      exact absurd hpos (not_lt.mpr hle)
  · intro w hw hpos
    rw [hW]
    simp only [convertWeight, hw]
    rw [if_pos ⟨ne_of_gt hpos, hpos⟩]
    split_ifs <;> rfl

/-- Claim C5 witness at a concrete accepted variant (500 grams). -/
theorem c5_witness :
    sampleMappedVariant.weight = some ((500 : ℚ) / 1000) ∧
    sampleMappedVariant.weight_unit = "kg" := by
  have h := c5_weight_rules sampleVariant 9 sampleMappedVariant (by decide)
  refine ⟨?_, h.2.2⟩
  have h2 := h.2.1 500 (by decide) (by norm_num)
  rw [if_pos (Or.inl (by decide : sampleVariant.weight_unit = some "g"))] at h2
  exact h2

/-- Claim C6: for every variant accepted by the variant mapper, an absent
source inventory quantity maps to the number 0; the tracked, shipping and
available flags are true unless the source says false explicitly; and the
output currency is always USD. -/
theorem c6_variant_defaults (v : ShopifyVariant) (pid : ℕ) (c : CloreProductVariant)
    (h : mapShopifyVariantToClore v pid = Except.ok c) :
    (v.inventory_quantity = JsPrim.undef → c.inventory_quantity = some 0) ∧
    (c.inventory_tracked = true ↔ v.tracked ≠ some false) ∧
    (c.requires_shipping = true ↔ v.requires_shipping ≠ some false) ∧
    (c.available = true ↔ v.available ≠ some false) ∧
    c.currency = "USD" := by
  have hc := mapVariant_ok h
  subst hc
  refine ⟨?_, ?_, ?_, ?_, rfl⟩
  · intro hq
    have hI : (mapVariantRecord v pid).inventory_quantity =
        defaultInventory v.inventory_quantity := rfl
    rw [hI, hq]
    rfl
  · have ht : (mapVariantRecord v pid).inventory_tracked =
        decide (v.tracked ≠ some false) := rfl
    rw [ht, decide_eq_true_iff]
  · have ht : (mapVariantRecord v pid).requires_shipping =
        decide (v.requires_shipping ≠ some false) := rfl
    rw [ht, decide_eq_true_iff]
  · have ht : (mapVariantRecord v pid).available =
        decide (v.available ≠ some false) := rfl
    rw [ht, decide_eq_true_iff]

/-- Claim C6 witness at a concrete accepted variant with the inventory
quantity absent. -/
theorem c6_witness :
    ({ sampleMappedVariant with inventory_quantity := some 0 } :
      CloreProductVariant).inventory_quantity = some 0 ∧
    ({ sampleMappedVariant with inventory_quantity := some 0 } :
      CloreProductVariant).currency = "USD" := by
  have h := c6_variant_defaults noInvVariant 9
    ({ sampleMappedVariant with inventory_quantity := some 0 }) (by decide)
  exact ⟨h.1 (by decide), h.2.2.2.2⟩

/-- Claim C7: for every product accepted by the product mapper, the mapped
tag list is the comma-split of the source tag string with every token
trimmed and empty tokens dropped, and it is null (never an empty list) when
no token survives, including when the tag string is absent. -/
theorem c7_tag_parsing (p : ShopifyProduct) (c : CloreProduct)
    (h : mapShopifyProductToClore p = Except.ok c) :
    (p.tags = none → c.tags = none) ∧
    (∀ t, p.tags = some t →
      c.tags =
        (if ((splitOnChar ',' t.data).map (fun cs => jsTrim ⟨cs⟩)).filter
              (fun tag => tag ≠ "") = [] then none
         else some (((splitOnChar ',' t.data).map (fun cs => jsTrim ⟨cs⟩)).filter
              (fun tag => tag ≠ "")))) := by
  have hc := mapProduct_ok h
  subst hc
  have hT : (mapProductRecord p).tags = parseTags p.tags := rfl
  constructor
  · intro htags
    rw [hT, htags]
    rfl
  · intro t ht
    rw [hT, ht]
    simp only [parseTags]
    by_cases h0 : t = ""
    · subst h0
      decide
    · rw [if_neg h0]
      have hfe :
          ((splitOnChar ',' t.data).map (fun cs => jsTrim ⟨cs⟩)).filter
            (fun tag => tag.length > 0) =
          ((splitOnChar ',' t.data).map (fun cs => jsTrim ⟨cs⟩)).filter
            (fun tag => tag ≠ "") := by
        apply List.filter_congr
        intro x _
        exact decide_length_pos x
      rw [hfe]
      rcases hA : ((splitOnChar ',' t.data).map (fun cs => jsTrim ⟨cs⟩)).filter
          (fun tag => tag ≠ "") with _ | ⟨a, as⟩
      · simp
      · simp

/-- Claim C7 witness at a concrete accepted product whose tag string holds
two plain tokens, one padded token and one empty token. -/
theorem c7_witness : sampleMappedProduct.tags = some ["red", "blue", "green"] := by
  have h := (c7_tag_parsing sampleProduct sampleMappedProduct (by decide)).2
    "red, blue ,,green" (by decide)
  rw [h]
  decide

/-- Claim C3 (counterexample): the claim as stated fails because a shop-info
failure suppresses the branding fetch entirely: at a concrete branding
response that would deliver a logo, the returned logo is null while the
branding fetch would return the logo. -/
theorem c3_counterexample :
    (getShopInfo (Except.error "shop fetch failed") brandingDemo).logo_url ≠
      (getShopBranding brandingDemo).logo_url ∧
    (getShopBranding brandingDemo).logo_url = some "https://cdn.example.com/logo.png" := by
  decide

/-- Claim C3 (amended): getShopInfo never propagates a failure: any shop-info
fetch failure, and any response without a shop payload, yields the record
with currency USD and no name or branding (the branding fetch is skipped);
in the successful shop-info case the resolved currency is independent of the
branding outcome, and a branding failure still yields the shop's currency
(defaulted to USD when falsy) and name. -/
theorem c3_shop_info_behavior :
    (∀ e br, getShopInfo (Except.error e) br =
      { currency := "USD", name := none, shop_owner := none,
        logo_url := none, description := none }) ∧
    (∀ br, getShopInfo (Except.ok none) br =
      { currency := "USD", name := none, shop_owner := none,
        logo_url := none, description := none }) ∧
    (∀ shop br br', (getShopInfo (Except.ok (some shop)) br).currency =
      (getShopInfo (Except.ok (some shop)) br').currency) ∧
    (∀ shop e, getShopInfo (Except.ok (some shop)) (Except.error e) =
      { currency := orElseStr shop.currency "USD", name := shop.name,
        shop_owner := shop.shop_owner, logo_url := none, description := none }) := by
  refine ⟨fun e br => rfl, fun br => rfl, fun shop br br' => rfl, fun shop e => rfl⟩

theorem processBatch_allErrors (n : ℕ) (r : SyncResponse) (acc : SyncAgg) :
    (processBatchResponse n r acc).allErrors = acc.allErrors ++ batchErrorStrings n r := by
  cases r with
  | gqlErrors msgs => rfl
  | noMutation => rfl
  | mutation m =>
      simp only [processBatchResponse, batchErrorStrings]
      cases hm : m.success
      · simp
      · simp only [if_true]
        cases he : m.errors with
        | none => simp
        | some es =>
            cases es with
            | nil => simp
            | cons a as => simp

theorem syncRunFrom_allErrors (rs : List SyncResponse) :
    ∀ (n : ℕ) (acc : SyncAgg),
      (syncRunFrom rs n acc).allErrors = acc.allErrors ++ allBatchErrors rs n := by
  induction rs with
  | nil => intro n acc; simp [syncRunFrom, allBatchErrors]
  | cons r rest ih =>
      intro n acc
      simp only [syncRunFrom, allBatchErrors]
      rw [ih, processBatch_allErrors, List.append_assoc]

theorem batchErrorStrings_eq_nil (n : ℕ) (r : SyncResponse) :
    batchErrorStrings n r = [] ↔ cleanResponse r = true := by
  cases r with
  | gqlErrors msgs => simp [batchErrorStrings, cleanResponse]
  | noMutation => simp [batchErrorStrings, cleanResponse]
  | mutation m =>
      simp only [batchErrorStrings, cleanResponse]
      cases hm : m.success
      · simp
      · cases he : m.errors with
        | none => simp
        | some es => cases es <;> simp

theorem allBatchErrors_eq_nil (rs : List SyncResponse) :
    ∀ n : ℕ, (allBatchErrors rs n = [] ↔ ∀ r ∈ rs, cleanResponse r = true) := by
  induction rs with
  | nil => intro n; simp [allBatchErrors]
  | cons r rest ih =>
      intro n
      simp only [allBatchErrors, List.append_eq_nil, List.mem_cons]
      rw [batchErrorStrings_eq_nil, ih]
      constructor
      · rintro ⟨h1, h2⟩ x (rfl | hx)
        · exact h1
        · exact h2 x hx
      · intro h
        exact ⟨h r (Or.inl rfl), fun x hx => h x (Or.inr hx)⟩

theorem mem_allBatchErrors {e : String} :
    ∀ (rs : List SyncResponse) (n i : ℕ) (hi : i < rs.length),
      e ∈ batchErrorStrings (n + i) (rs.get ⟨i, hi⟩) → e ∈ allBatchErrors rs n := by
  intro rs
  induction rs with
  | nil => intro n i hi; exact absurd hi (Nat.not_lt_zero i)
  | cons r rest ih =>
      intro n i hi he
      cases i with
      | zero =>
          apply List.mem_append_left
          simpa using he
      | succ j =>
          apply List.mem_append_right
          have hj : j < rest.length := by
            simpa [Nat.succ_lt_succ_iff] using hi
          apply ih (n + 1) j hj
          rw [show n + 1 + j = n + (j + 1) from by omega]
          exact he

/-- Claim C1 (counterexample): the claim as stated fails because the remote
error strings of an unsuccessful mutation are dropped: with one batch whose
mutation reports failure with message `mutation failed` and remote errors
`[remote error]`, only the prefixed message reaches the aggregate list. -/
theorem c1_counterexample :
    failingEnv 1 = SyncResponse.mutation
      { success := false, message := "mutation failed", storeId := none,
        productsCreated := 0, variantsCreated := 0, errors := some ["remote error"] } ∧
    (syncScrapedStoreAndProducts demoSyncData failingEnv).result.allErrors =
      ["Batch 1: mutation failed"] ∧
    "remote error" ∉ (syncScrapedStoreAndProducts demoSyncData failingEnv).result.allErrors := by
  decide

/-- Claim C1 (amended): the batched sync reports overall success exactly when
the aggregated error list is empty, which happens exactly when every batch
response is a successful mutation with no remote-reported errors; every
GraphQL-error response, missing mutation result and unsuccessful mutation
appends a batch error string and processing continues; the remote-reported
error strings of a batch are appended when that batch's mutation reports
success (those of an unsuccessful mutation are dropped in favour of its
message). -/
theorem c1_sync_success (data : ScrapedStoreData) (env : ℕ → SyncResponse) :
    ((syncScrapedStoreAndProducts data env).success = true ↔
      (syncScrapedStoreAndProducts data env).result.allErrors = []) ∧
    ((syncScrapedStoreAndProducts data env).success = true ↔
      (∀ i, i < (batchProducts data.products).length →
        cleanResponse (env (i + 1)) = true)) ∧
    (∀ i, i < (batchProducts data.products).length → ∀ m,
      env (i + 1) = SyncResponse.mutation m → m.success = true →
      ∀ e ∈ m.errors.getD [], e ∈ (syncScrapedStoreAndProducts data env).result.allErrors) := by
  have hsuc : (syncScrapedStoreAndProducts data env).success =
      (syncScrapedStoreAndProducts data env).result.allErrors.isEmpty := rfl
  have hrun : (syncScrapedStoreAndProducts data env).result.allErrors =
      allBatchErrors ((List.range (batchProducts data.products).length).map
        (fun i => env (i + 1))) 1 := by
    show (syncRunFrom _ 1 ⟨none, 0, 0, []⟩).allErrors = _
    rw [syncRunFrom_allErrors]
    rfl
  have hempty : (syncScrapedStoreAndProducts data env).success = true ↔
      (syncScrapedStoreAndProducts data env).result.allErrors = [] := by
    rw [hsuc, List.isEmpty_iff]
  refine ⟨hempty, ?_, ?_⟩
  · rw [hempty, hrun, allBatchErrors_eq_nil]
    constructor
    · intro h i hi
      exact h (env (i + 1)) (List.mem_map.mpr ⟨i, List.mem_range.mpr hi, rfl⟩)
    · intro h r hr
      obtain ⟨i, hi, rfl⟩ := List.mem_map.mp hr
      exact h i (List.mem_range.mp hi)
  · intro i hi m hm hms e he
    rw [hrun]
    have hlen : i < ((List.range (batchProducts data.products).length).map
        (fun i => env (i + 1))).length := by
      simpa using hi
    apply mem_allBatchErrors _ 1 i hlen
    have hget : ((List.range (batchProducts data.products).length).map
        (fun i => env (i + 1))).get ⟨i, hlen⟩ = env (i + 1) := by
      simp
    rw [hget, hm]
    simp only [batchErrorStrings, hms, if_true]
    cases herr : m.errors with
    | none => rw [herr] at he; exact absurd he (by simp)
    | some es => rw [herr] at he; simpa using he

/-- Claim C1 witness: at the one-batch failing environment, overall success
is false and the non-clean batch is detected. -/
theorem c1_witness :
    (syncScrapedStoreAndProducts demoSyncData failingEnv).success = false := by
  have h := (c1_sync_success demoSyncData failingEnv).2.1
  by_contra hb
  have hb' : (syncScrapedStoreAndProducts demoSyncData failingEnv).success = true := by
    cases hs : (syncScrapedStoreAndProducts demoSyncData failingEnv).success
    · exact absurd hs hb
    · rfl
  have := h.mp hb' 0 (by decide)
  rw [show (0 : ℕ) + 1 = 1 from rfl] at this
  exact absurd this (by decide)

theorem batchGo_join : ∀ (f : ℕ) (ps : List CloreProduct), (batchGo f ps).flatten = ps := by
  intro f
  induction f with
  | zero =>
      intro ps
      cases ps with
      | nil => rfl
      | cons a l => simp [batchGo]
  | succ f ih =>
      intro ps
      cases ps with
      | nil => rfl
      | cons a l =>
          show (List.take BATCH_SIZE (a :: l) :: batchGo f (List.drop BATCH_SIZE (a :: l))).flatten
            = a :: l
          rw [List.flatten_cons, ih, List.take_append_drop]

theorem batchGo_map_length :
    ∀ (f : ℕ) (ps : List CloreProduct),
      (batchGo f ps).map List.length = lenChunks f ps.length := by
  intro f
  induction f with
  | zero =>
      intro ps
      cases ps with
      | nil => rfl
      | cons a l => simp [batchGo, lenChunks]
  | succ f ih =>
      intro ps
      cases ps with
      | nil => rfl
      | cons a l =>
          show (List.take BATCH_SIZE (a :: l) :: batchGo f (List.drop BATCH_SIZE (a :: l))).map
              List.length = lenChunks (f + 1) (a :: l).length
          rw [List.map_cons, ih]
          simp [lenChunks, List.length_take, List.length_drop, Nat.min_comm]

theorem batchGo_mem :
    ∀ (f : ℕ) (ps : List CloreProduct) (b : List CloreProduct),
      b ∈ batchGo f ps → ps.length ≤ BATCH_SIZE * f + BATCH_SIZE →
      b.length ≤ BATCH_SIZE ∧ b ≠ [] := by
  intro f
  induction f with
  | zero =>
      intro ps b hb hf
      cases ps with
      | nil => exact absurd hb (by simp [batchGo])
      | cons a l =>
          have hb' : b = a :: l := by simpa [batchGo] using hb
          subst hb'
          refine ⟨by simpa using hf, by simp⟩
  | succ f ih =>
      intro ps b hb hf
      cases ps with
      | nil => exact absurd hb (by simp [batchGo])
      | cons a l =>
          have hb' : b = List.take BATCH_SIZE (a :: l) ∨ b ∈ batchGo f (List.drop BATCH_SIZE (a :: l)) := by
            simpa [batchGo] using hb
          rcases hb' with rfl | hmem
          · constructor
            · exact List.length_take_le BATCH_SIZE (a :: l)
            · have hpos : 0 < (List.take BATCH_SIZE (a :: l)).length := by
                rw [List.length_take]
                simp [BATCH_SIZE]
              exact List.ne_nil_of_length_pos hpos
          · apply ih _ b hmem
            rw [List.length_drop]
            rw [Nat.mul_succ] at hf
            omega

/-- Claim C2: the sync client partitions the products into consecutive
batches of at most 20 that rejoin to the input (45 products give sizes
20, 20, 5), and the variant subset of a batch contains exactly the input
variants whose parent product id matches some product of the batch. -/
theorem c2_batching (ps : List CloreProduct) (vs : List CloreProductVariant) :
    (batchProducts ps).flatten = ps ∧
    (∀ b ∈ batchProducts ps, b.length ≤ 20 ∧ b ≠ []) ∧
    (ps.length = 45 → (batchProducts ps).map List.length = [20, 20, 5]) ∧
    (∀ (batch : List CloreProduct) (v : CloreProductVariant),
      v ∈ variantsForBatch vs batch ↔
        (v ∈ vs ∧ ∃ p ∈ batch, p.shopify_id = v.shopify_product_id)) := by
  refine ⟨batchGo_join _ _, ?_, ?_, ?_⟩
  · intro b hb
    have h := batchGo_mem ps.length ps b hb (by simp [BATCH_SIZE]; omega)
    simpa [BATCH_SIZE] using h
  · intro h45
    show (batchGo ps.length ps).map List.length = [20, 20, 5]
    rw [batchGo_map_length, h45]
    decide
  · intro batch v
    simp only [variantsForBatch, List.mem_filter, List.any_eq_true, beq_iff_eq]

/-- Claim C2 witness: 45 concrete products produce batch sizes 20, 20, 5,
and the variant filter keeps exactly the variants whose parent is present. -/
theorem c2_witness :
    (batchProducts demoProducts45).map List.length = [20, 20, 5] ∧
    (demoCloreVariant ∈ variantsForBatch [demoCloreVariant, orphanCloreVariant]
      [demoCloreProduct] ↔
      (demoCloreVariant ∈ [demoCloreVariant, orphanCloreVariant] ∧
        ∃ p ∈ [demoCloreProduct], p.shopify_id = demoCloreVariant.shopify_product_id)) := by
  exact ⟨(c2_batching demoProducts45 []).2.2.1 (by decide),
    (c2_batching [demoCloreProduct] [demoCloreVariant, orphanCloreVariant]).2.2.2
      [demoCloreProduct] demoCloreVariant⟩

theorem retryGo_spec {ε α : Type} (op : ℕ → Except ε α) (name : String) (maxRetries : ℕ) :
    ∀ (fuel attempt : ℕ), 1 ≤ attempt → attempt ≤ maxRetries →
      maxRetries ≤ attempt + fuel →
      (attempt ≤ (retryGo op name maxRetries attempt fuel).attemptsMade ∧
        (retryGo op name maxRetries attempt fuel).attemptsMade ≤ maxRetries) ∧
      (∀ v, (retryGo op name maxRetries attempt fuel).result = Except.ok v →
        op (retryGo op name maxRetries attempt fuel).attemptsMade = Except.ok v ∧
        ∀ j, attempt ≤ j → j < (retryGo op name maxRetries attempt fuel).attemptsMade →
          ∃ e, op j = Except.error e) ∧
      ((retryGo op name maxRetries attempt fuel).sleeps =
        (List.range' attempt ((retryGo op name maxRetries attempt fuel).attemptsMade - attempt)).map
          (fun j => 2 ^ (j - 1) * 1000)) ∧
      ((∀ j, attempt ≤ j → j ≤ maxRetries → ∃ e, op j = Except.error e) →
        ∃ e, op maxRetries = Except.error e ∧
          (retryGo op name maxRetries attempt fuel).result = Except.error e ∧
          (retryGo op name maxRetries attempt fuel).attemptsMade = maxRetries ∧
          (retryGo op name maxRetries attempt fuel).failLog =
            some (name ++ " failed after " ++ toString maxRetries ++ " attempts")) := by
  intro fuel
  induction fuel with
  | zero =>
      intro attempt h1 hle hbound
      have heq : attempt = maxRetries := by omega
      subst heq
      cases hop : op attempt with
      | ok v =>
          simp only [retryGo, hop]
          refine ⟨⟨le_refl _, le_refl _⟩, ?_, by simp, ?_⟩
          · intro v' hv
            rw [Except.ok.injEq] at hv
            subst hv
            exact ⟨rfl, fun j hj1 hj2 => absurd hj2 (by omega)⟩
          · intro hall
            obtain ⟨e, he⟩ := hall attempt (le_refl _) (le_refl _)
            rw [hop] at he
            exact Except.noConfusion he
      | error e =>
          simp only [retryGo, hop]
          refine ⟨⟨le_refl _, le_refl _⟩, ?_, by simp, ?_⟩
          · intro v hv
            exact Except.noConfusion hv
          · intro _
            refine ⟨e, ?_, ?_, ?_, ?_⟩ <;> trivial
  | succ f ih =>
      intro attempt h1 hle hbound
      cases hop : op attempt with
      | ok v =>
          simp only [retryGo, hop]
          refine ⟨⟨le_refl _, hle⟩, ?_, by simp, ?_⟩
          · intro v' hv
            rw [Except.ok.injEq] at hv
            subst hv
            exact ⟨rfl, fun j hj1 hj2 => absurd hj2 (by omega)⟩
          · intro hall
            obtain ⟨e, he⟩ := hall attempt (le_refl _) hle
            rw [hop] at he
            exact Except.noConfusion he
      | error e =>
          by_cases hlt : attempt < maxRetries
          · have ih' := ih (attempt + 1) (by omega) (by omega) (by omega)
            obtain ⟨⟨hA1, hA2⟩, hOk, hSleep, hFail⟩ := ih'
            simp only [retryGo, hop, if_pos hlt]
            refine ⟨⟨by omega, hA2⟩, ?_, ?_, ?_⟩
            · intro v hv
              obtain ⟨hv1, hv2⟩ := hOk v hv
              refine ⟨hv1, ?_⟩
              intro j hj1 hj2
              rcases eq_or_lt_of_le hj1 with heq | hj
              · exact heq ▸ ⟨e, hop⟩
              · exact hv2 j (by omega) hj2
            · rw [hSleep]
              have hn : (retryGo op name maxRetries (attempt + 1) f).attemptsMade - attempt =
                  ((retryGo op name maxRetries (attempt + 1) f).attemptsMade - (attempt + 1)) + 1 := by
                omega
              rw [hn, List.range'_succ, List.map_cons]
            · intro hall
              obtain ⟨e', h1', h2', h3', h4'⟩ :=
                hFail (fun j hj hj2 => hall j (by omega) hj2)
              exact ⟨e', h1', h2', h3', h4'⟩
          · have heq : attempt = maxRetries := by omega
            subst heq
            simp only [retryGo, hop, if_neg hlt]
            refine ⟨⟨le_refl _, le_refl _⟩, ?_, by simp, ?_⟩
            · intro v hv
              exact Except.noConfusion hv
            · intro _
              refine ⟨e, ?_, ?_, ?_, ?_⟩ <;> trivial

/-- Claim C9: the retry helper with maxAttempts at least 1 invokes the
operation at most maxAttempts times, returning the first success (all
earlier attempts failed); after each failed attempt numbered below
maxAttempts it sleeps exactly 2^(attempt-1)*1000 ms; and when every attempt
fails it re-raises the last attempt's error, logging a diagnostic line
tagged with the label. -/
theorem c9_retry_backoff {ε α : Type} (op : ℕ → Except ε α) (name : String)
    (maxRetries : ℕ) (hmax : 1 ≤ maxRetries) :
    (1 ≤ (retryWithBackoff op name maxRetries).attemptsMade ∧
      (retryWithBackoff op name maxRetries).attemptsMade ≤ maxRetries) ∧
    (∀ v, (retryWithBackoff op name maxRetries).result = Except.ok v →
      op (retryWithBackoff op name maxRetries).attemptsMade = Except.ok v ∧
      ∀ j, 1 ≤ j → j < (retryWithBackoff op name maxRetries).attemptsMade →
        ∃ e, op j = Except.error e) ∧
    ((retryWithBackoff op name maxRetries).sleeps =
      (List.range' 1 ((retryWithBackoff op name maxRetries).attemptsMade - 1)).map
        (fun j => 2 ^ (j - 1) * 1000)) ∧
    ((∀ j, 1 ≤ j → j ≤ maxRetries → ∃ e, op j = Except.error e) →
      ∃ e, op maxRetries = Except.error e ∧
        (retryWithBackoff op name maxRetries).result = Except.error e ∧
        (retryWithBackoff op name maxRetries).failLog =
          some (name ++ " failed after " ++ toString maxRetries ++ " attempts")) := by
  obtain ⟨hA, hOk, hSleep, hFail⟩ :=
    retryGo_spec op name maxRetries maxRetries 1 (le_refl _) hmax (by omega)
  refine ⟨hA, hOk, hSleep, ?_⟩
  intro hall
  obtain ⟨e, h1', h2', _, h4'⟩ := hFail hall
  exact ⟨e, h1', h2', h4'⟩

/-- Claim C9 witness: the operation failing on attempt 1 and succeeding on
attempt 2 with three allowed attempts sleeps exactly 1000 ms once. -/
theorem c9_witness :
    (retryWithBackoff demoRetryOp "sync" 3).sleeps =
      (List.range' 1 ((retryWithBackoff demoRetryOp "sync" 3).attemptsMade - 1)).map
        (fun j => 2 ^ (j - 1) * 1000) ∧
    (retryWithBackoff demoRetryOp "sync" 3).sleeps = [1000] := by
  refine ⟨(c9_retry_backoff demoRetryOp "sync" 3 (by decide)).2.2.1, ?_⟩
  decide

theorem extractVariants_sub (p : ShopifyProduct) (v : ShopifyVariant)
    (h : v ∈ extractVariants p) : v ∈ p.variants.getD [] := by
  cases hv : p.variants with
  | none => rw [extractVariants, hv] at h; exact absurd h (by simp)
  | some vs =>
      rw [extractVariants, hv] at h
      simpa using List.mem_of_mem_filter h

theorem processPage_parent :
    ∀ (ps : List ShopifyProduct) (v : ShopifyVariant),
      v ∈ (processPage ps).2.1 → ∃ p ∈ (processPage ps).1, v ∈ p.variants.getD [] := by
  intro ps
  induction ps with
  | nil => intro v hv; exact absurd hv (by simp [processPage])
  | cons p rest ih =>
      intro v hv
      by_cases ht : p.title = ""
      · rw [processPage, if_pos ht] at hv ⊢
        obtain ⟨q, hq, hqv⟩ := ih v hv
        exact ⟨q, hq, hqv⟩
      · rw [processPage, if_neg ht] at hv ⊢
        rcases List.mem_append.mp hv with hL | hR
        · exact ⟨p, List.mem_cons_self p _, extractVariants_sub p v hL⟩
        · obtain ⟨q, hq, hqv⟩ := ih v hR
          exact ⟨q, List.mem_cons_of_mem p hq, hqv⟩

theorem scrapeGo_parent :
    ∀ (fuel : ℕ) (env : ℕ → PageFetch) (page : ℕ) (r : ScraperResult),
      scrapeGo env fuel page = some r →
      ∀ v ∈ r.variants, ∃ p ∈ r.products, v ∈ p.variants.getD [] := by
  intro fuel
  induction fuel with
  | zero =>
      intro env page r h
      exact absurd h (by simp [scrapeGo])
  | succ f ih =>
      intro env page r h
      cases he : env page with
      | fetchFail msg =>
          simp only [scrapeGo, he] at h
          rw [Option.some.injEq] at h
          subst h
          intro v hv
          exact absurd hv (by simp)
      | fetched products =>
          simp only [scrapeGo, he] at h
          by_cases hp : products.isEmpty
          · rw [if_pos hp] at h
            rw [Option.some.injEq] at h
            subst h
            intro v hv
            exact absurd hv (by simp)
          · rw [if_neg hp] at h
            cases hrec : scrapeGo env f (page + 1) with
            | none => rw [hrec] at h; exact Option.noConfusion h
            | some r' =>
                rw [hrec] at h
                rw [Option.some.injEq] at h
                subst h
                intro v hv
                rcases List.mem_append.mp hv with hL | hR
                · obtain ⟨p, hp1, hp2⟩ := processPage_parent products v hL
                  exact ⟨p, List.mem_append_left _ hp1, hp2⟩
                · obtain ⟨p, hp1, hp2⟩ := ih env (page + 1) r' hrec v hR
                  exact ⟨p, List.mem_append_right _ hp1, hp2⟩

/-- Claim C10: in every result the paginated scraper returns, each
accumulated variant was extracted from a product present in the returned
product list: a product rejected for a missing title contributes neither
itself nor any of its variants. -/
theorem c10_variant_parent (env : ℕ → PageFetch) (fuel : ℕ) (r : ScraperResult)
    (h : scrapeShopifyProducts env fuel = some r) :
    ∀ v ∈ r.variants, ∃ p ∈ r.products, v ∈ p.variants.getD [] :=
  scrapeGo_parent fuel env 1 r h

/-- Claim C10 witness at the concrete one-page demo run. -/
theorem c10_witness :
    ∃ p ∈ demoScrapeResult.products, sampleVariant ∈ p.variants.getD [] :=
  c10_variant_parent demoPagesEnv 5 demoScrapeResult (by decide) sampleVariant (by decide)

theorem scrapeGo_run (env : ℕ → PageFetch) (pages : ℕ → List ShopifyProduct) (stop : ℕ)
    (hok : ∀ q, q < stop → 1 ≤ q → env q = PageFetch.fetched (pages q) ∧ pages q ≠ [])
    (hend : (∃ msg, env stop = PageFetch.fetchFail msg) ∨ env stop = PageFetch.fetched []) :
    ∀ (fuel k : ℕ), 1 ≤ k → k ≤ stop → stop + 1 ≤ k + fuel →
      scrapeGo env fuel k = some
        { products :=
            ((List.range' k (stop - k)).map (fun q => (processPage (pages q)).1)).flatten,
          variants :=
            ((List.range' k (stop - k)).map (fun q => (processPage (pages q)).2.1)).flatten,
          failedProducts :=
            ((List.range' k (stop - k)).map (fun q => (processPage (pages q)).2.2)).flatten,
          totalPages := stop - 1,
          pagesFetched := List.range' k (stop - k + 1) } := by
  intro fuel
  induction fuel with
  | zero =>
      intro k h1 h2 h3
      exact absurd h3 (by omega)
  | succ f ih =>
      intro k h1 h2 h3
      rcases eq_or_lt_of_le h2 with heq | hk
      · subst heq
        rcases hend with ⟨msg, hf⟩ | hf
        · simp only [scrapeGo, hf]
          simp [Nat.sub_self, List.range']
        · simp only [scrapeGo, hf]
          simp [Nat.sub_self, List.range']
      · obtain ⟨henv, hne⟩ := hok k hk h1
        have hpe : ¬ ((pages k).isEmpty = true) := by
          simpa [List.isEmpty_iff] using hne
        simp only [scrapeGo, henv]
        rw [if_neg hpe, ih (k + 1) (by omega) (by omega) (by omega)]
        have hsk : stop - k = (stop - (k + 1)) + 1 := by omega
        rw [Option.some.injEq, hsk]
        simp [List.range'_succ]

/-- Claim C8: the paginated scraper stops fetching exactly at the first page
that fails after exhausting retries or that carries zero products; it fetches
no page past the stopping one, yet returns every product, variant and
per-product failure accumulated from the prior successful pages and reports
their count as the page total. -/
theorem c8_scraper_partial (env : ℕ → PageFetch) (pages : ℕ → List ShopifyProduct)
    (stop fuel : ℕ) (hstop1 : 1 ≤ stop) (hfuel : stop ≤ fuel)
    (hok : ∀ q, q < stop → 1 ≤ q → env q = PageFetch.fetched (pages q) ∧ pages q ≠ [])
    (hend : (∃ msg, env stop = PageFetch.fetchFail msg) ∨ env stop = PageFetch.fetched []) :
    scrapeShopifyProducts env fuel = some
      { products :=
          ((List.range' 1 (stop - 1)).map (fun q => (processPage (pages q)).1)).flatten,
        variants :=
          ((List.range' 1 (stop - 1)).map (fun q => (processPage (pages q)).2.1)).flatten,
        failedProducts :=
          ((List.range' 1 (stop - 1)).map (fun q => (processPage (pages q)).2.2)).flatten,
        totalPages := stop - 1,
        pagesFetched := List.range' 1 stop } := by
  have h := scrapeGo_run env pages stop hok hend fuel 1 (le_refl 1) hstop1 (by omega)
  rw [show stop - 1 + 1 = stop from by omega] at h
  exact h

/-- Claim C8 witness: one successful page followed by a failing fetch keeps
the first page's products and variants, reports one page, and attempts no
page beyond the failing one. -/
theorem c8_witness : scrapeShopifyProducts demoPagesEnv 5 = some demoScrapeResult := by
  have h := c8_scraper_partial demoPagesEnv demoPages 2 5 (by decide) (by decide)
    (by decide) (Or.inl ⟨"net down", by decide⟩)
  rw [h]
  decide

theorem toLower_or (c : Char) :
    Char.toLower c = c ∨ (65 ≤ c.toNat ∧ c.toNat ≤ 90) := by
  simp only [Char.toLower]
  split
  · next h => exact Or.inr h
  · next h => exact Or.inl rfl

theorem alnumCI_not_ws (c : Char) (h : isAlnumCI c = true) : c.isWhitespace = false := by
  cases hw : c.isWhitespace
  · rfl
  · exfalso
    simp only [Char.isWhitespace, Bool.or_eq_true, decide_eq_true_iff] at hw
    rcases hw with ((rfl | rfl) | rfl) | rfl <;> exact absurd h (by decide)

theorem hostCharProps (c : Char)
    (h : isAlnumCI (Char.toLower c) = true ∨ Char.toLower c = '-' ∨ Char.toLower c = '.') :
    c ≠ '/' ∧ c ≠ ':' ∧ c.isWhitespace = false := by
  rcases toLower_or c with heq | hup
  · rw [heq] at h
    rcases h with h | h | h
    · refine ⟨?_, ?_, alnumCI_not_ws c h⟩
      · rintro rfl; exact absurd h (by decide)
      · rintro rfl; exact absurd h (by decide)
    · subst h; exact ⟨by decide, by decide, by decide⟩
    · subst h; exact ⟨by decide, by decide, by decide⟩
  · refine ⟨?_, ?_, ?_⟩
    · rintro rfl; exact absurd hup.1 (by decide)
    · rintro rfl; exact absurd hup.1 (by decide)
    · cases hw : c.isWhitespace
      · rfl
      · exfalso
        simp only [Char.isWhitespace, Bool.or_eq_true, decide_eq_true_iff] at hw
        rcases hw with ((rfl | rfl) | rfl) | rfl <;> exact absurd hup.1 (by decide)

theorem splitOnChar_ne_nil (sep : Char) : ∀ cs : List Char, splitOnChar sep cs ≠ [] := by
  intro cs
  cases cs with
  | nil => simp [splitOnChar]
  | cons c rest =>
      simp only [splitOnChar]
      by_cases hc : c = sep
      · simp [hc]
      · rw [if_neg hc]
        cases splitOnChar sep rest <;> simp

theorem splitOnChar_chars (sep : Char) :
    ∀ (cs : List Char) (c : Char), c ∈ cs →
      c = sep ∨ ∃ part ∈ splitOnChar sep cs, c ∈ part := by
  intro cs
  induction cs with
  | nil => intro c hc; exact absurd hc (List.not_mem_nil c)
  | cons d rest ih =>
      intro c hc
      simp only [splitOnChar]
      by_cases hd : d = sep
      · rw [if_pos hd]
        rcases List.mem_cons.mp hc with rfl | hcr
        · exact Or.inl hd
        · rcases ih c hcr with hsep | ⟨part, hp, hcp⟩
          · exact Or.inl hsep
          · exact Or.inr ⟨part, List.mem_cons_of_mem _ hp, hcp⟩
      · rw [if_neg hd]
        cases hr : splitOnChar sep rest with
        | nil => exact absurd hr (splitOnChar_ne_nil sep rest)
        | cons h t =>
            rcases List.mem_cons.mp hc with rfl | hcr
            · exact Or.inr ⟨c :: h, List.mem_cons_self _ _, List.mem_cons_self _ _⟩
            · rcases ih c hcr with hsep | ⟨part, hp, hcp⟩
              · exact Or.inl hsep
              · rw [hr] at hp
                rcases List.mem_cons.mp hp with rfl | hpt
                · exact Or.inr ⟨d :: part, List.mem_cons_self _ _,
                    List.mem_cons_of_mem _ hcp⟩
                · exact Or.inr ⟨part, List.mem_cons_of_mem _ hpt, hcp⟩

theorem isDomainLabel_chars (cs : List Char) (h : isDomainLabel cs = true) :
    ∀ c ∈ cs, isAlnumCI c = true ∨ c = '-' := by
  cases cs with
  | nil => exact absurd h (by simp [isDomainLabel])
  | cons a rest =>
      simp only [isDomainLabel, Bool.and_eq_true] at h
      obtain ⟨⟨h1, h2⟩, h3⟩ := h
      intro c hc
      rcases List.mem_cons.mp hc with rfl | hcr
      · exact Or.inl h1
      · by_cases hrn : rest = []
        · subst hrn; exact absurd hcr (List.not_mem_nil c)
        · rw [← List.dropLast_append_getLast hrn] at hcr
          rcases List.mem_append.mp hcr with hdl | hlast
          · have hor := List.all_eq_true.mp h2 c hdl
            simp only [Bool.or_eq_true] at hor
            rcases hor with ha | hb
            · exact Or.inl ha
            · exact Or.inr (by simpa using hb)
          · have hceq : c = rest.getLast hrn := by simpa using hlast
            rw [List.getLast?_eq_getLast rest hrn] at h3
            rw [hceq]
            exact Or.inl h3

theorem no_sep_splitOnChar (sep : Char) :
    ∀ cs : List Char, sep ∉ cs → splitOnChar sep cs = [cs] := by
  intro cs
  induction cs with
  | nil => intro _; rfl
  | cons c rest ih =>
      intro hm
      have hc : ¬ (c = sep) := fun he => hm (he ▸ List.mem_cons_self c rest)
      have hr : sep ∉ rest := fun hmr => hm (List.mem_cons_of_mem c hmr)
      simp only [splitOnChar, ih hr]
      rw [if_neg hc]

theorem valid_has_dot (s : String) (h : isValidDomain s = true) : '.' ∈ s.data := by
  by_contra hdot
  rw [isValidDomain, no_sep_splitOnChar '.' s.data hdot] at h
  simp at h

theorem valid_chars (s : String) (h : isValidDomain s = true) :
    ∀ c ∈ s.data, isAlnumCI c = true ∨ c = '-' ∨ c = '.' := by
  intro c hc
  rcases splitOnChar_chars '.' s.data c hc with rfl | ⟨part, hp, hcp⟩
  · exact Or.inr (Or.inr rfl)
  · rw [isValidDomain] at h
    cases hL : (splitOnChar '.' s.data).getLast? with
    | none => rw [hL] at h; exact absurd h (by simp)
    | some tld =>
        rw [hL] at h
        simp only [Bool.and_eq_true] at h
        obtain ⟨⟨_, h2⟩, _, h4⟩ := h
        have hne : splitOnChar '.' s.data ≠ [] := splitOnChar_ne_nil '.' s.data
        rw [← List.dropLast_append_getLast hne] at hp
        rcases List.mem_append.mp hp with hdl | hlast
        · have hlab := List.all_eq_true.mp h2 part hdl
          rcases isDomainLabel_chars part hlab c hcp with ha | hb
          · exact Or.inl ha
          · exact Or.inr (Or.inl hb)
        · have hpeq : part = (splitOnChar '.' s.data).getLast hne := by simpa using hlast
          rw [List.getLast?_eq_getLast _ hne] at hL
          rw [Option.some.injEq] at hL
          have halpha := List.all_eq_true.mp h4 c (by rw [← hL, ← hpeq]; exact hcp)
          exact Or.inl (by simp [isAlnumCI, halpha])

theorem dropWhile_head_false {p : Char → Bool} :
    ∀ l : List Char, (∀ c, l.head? = some c → p c = false) → l.dropWhile p = l := by
  intro l h
  cases l with
  | nil => rfl
  | cons a t =>
      rw [List.dropWhile_cons, if_neg]
      simp [h a rfl]

theorem dropWhile_all_false {p : Char → Bool} :
    ∀ l : List Char, (∀ c ∈ l, p c = false) → l.dropWhile p = l := by
  intro l h
  apply dropWhile_head_false
  intro c hc
  cases l with
  | nil => exact absurd hc (by simp)
  | cons a t =>
      rw [List.head?_cons, Option.some.injEq] at hc
      exact hc ▸ h a (List.mem_cons_self a t)

theorem jsTrim_id (l : List Char) (h : ∀ c ∈ l, c.isWhitespace = false) :
    jsTrim ⟨l⟩ = ⟨l⟩ := by
  show (⟨((l.dropWhile Char.isWhitespace).reverse.dropWhile Char.isWhitespace).reverse⟩ : String)
    = ⟨l⟩
  rw [dropWhile_all_false l h, dropWhile_all_false l.reverse
    (fun c hc => h c (List.mem_reverse.mp hc)), List.reverse_reverse]

theorem not_proto_isPrefixOf (protoD hostD suffixD : List Char)
    (hdot : ∃ c ∈ hostD, Char.toLower c = '.')
    (hcolon : ':' ∉ hostD)
    (hdotp : ∀ c ∈ protoD, Char.toLower c ≠ '.')
    (hcolonp : ':' ∈ protoD) :
    protoD.isPrefixOf (hostD ++ suffixD) = false := by
  cases hb : protoD.isPrefixOf (hostD ++ suffixD)
  · rfl
  · exfalso
    have hpre : protoD <+: hostD ++ suffixD := List.isPrefixOf_iff_prefix.mp hb
    have hh : hostD <+: hostD ++ suffixD := List.prefix_append hostD suffixD
    rcases List.prefix_or_prefix_of_prefix hpre hh with hp1 | hp2
    · exact hcolon (hp1.subset hcolonp)
    · obtain ⟨c, hc, hcl⟩ := hdot
      exact hdotp c (hp2.subset hc) hcl

theorem normalizeDomain_of_data (input : String) (nslash : ℕ) (www : Bool)
    (hostD suffixD : List Char)
    (hs1 : (if ("https://".data).isPrefixOf input.data then input.data.drop 8
            else if ("http://".data).isPrefixOf input.data then input.data.drop 7
            else input.data)
          = List.replicate nslash '/' ++ (wwwDeco www ++ (hostD ++ suffixD)))
    (hprops : ∀ c ∈ hostD, c ≠ '/' ∧ c ≠ ':' ∧ c.isWhitespace = false)
    (hne : hostD ≠ [])
    (hwsL : ∀ c ∈ hostD.map Char.toLower, c.isWhitespace = false)
    (hwww : www = false → ("www.".data).isPrefixOf hostD = false)
    (hsuffix : suffixD = [] ∨ (∃ t, suffixD = '/' :: t) ∨ (∃ t, suffixD = ':' :: t))
    (hvalid : isValidDomain ⟨hostD.map Char.toLower⟩ = true) :
    normalizeDomain input = Except.ok ⟨hostD.map Char.toLower⟩ := by
  have hsfx : (suffixD.takeWhile (fun c => c ≠ '/')).takeWhile (fun c => c ≠ ':') = [] := by
    rcases hsuffix with rfl | ⟨t, rfl⟩ | ⟨t, rfl⟩
    · rfl
    · rw [List.takeWhile_cons, if_neg (by simp)]
      rfl
    · rw [List.takeWhile_cons, if_pos (by simp), List.takeWhile_cons, if_neg (by simp)]
  have hhost1 : ∀ c ∈ hostD, (fun c => decide (c ≠ '/')) c = true := by
    intro c hc
    simpa using (hprops c hc).1
  have hhost2 : ∀ c ∈ hostD, (fun c => decide (c ≠ ':')) c = true := by
    intro c hc
    simpa using (hprops c hc).2.1
  simp only [normalizeDomain]
  rw [hs1, List.dropWhile_append_of_pos (by intro c hc; simpa using List.eq_of_mem_replicate hc)]
  cases www
  · obtain ⟨a, t, rfl⟩ : ∃ a t, hostD = a :: t := by
      cases hostD with
      | nil => exact absurd rfl hne
      | cons a t => exact ⟨a, t, rfl⟩
    simp only [wwwDeco, List.nil_append]
    rw [dropWhile_head_false _ (by
      intro c hc
      rw [List.cons_append, List.head?_cons, Option.some.injEq] at hc
      subst hc
      simpa using (hprops a (List.mem_cons_self a t)).1)]
    rw [List.takeWhile_append_of_pos hhost1, List.takeWhile_append_of_pos hhost2, hsfx,
      List.append_nil]
    rw [show dropPrefixIf ("www.".data) (a :: t) = a :: t from by
      simp [dropPrefixIf, hwww rfl]]
    rw [jsTrim_id _ hwsL, if_pos hvalid]
  · simp only [wwwDeco]
    rw [dropWhile_head_false _ (by
      intro c hc
      have hc' : some 'w' = some c := hc
      rw [Option.some.injEq] at hc'
      subst hc'
      decide)]
    rw [List.takeWhile_append_of_pos (by decide),
      List.takeWhile_append_of_pos hhost1, List.takeWhile_append_of_pos (by decide),
      List.takeWhile_append_of_pos hhost2, hsfx, List.append_nil]
    rw [show dropPrefixIf ("www.".data) ("www.".data ++ hostD) = hostD from by
      rw [dropPrefixIf, if_pos (by simp), List.drop_left]]
    rw [jsTrim_id _ hwsL, if_pos hvalid]

theorem isPrefixOf_cons_false {a b : Char} (h : (a == b) = false) (as bs : List Char) :
    (a :: as).isPrefixOf (b :: bs) = false := by
  simp only [List.isPrefixOf, h, Bool.false_and]

/-- Claim C4 (amended): an input assembled from a valid hostname decorated
with an optional protocol, leading slashes, an optional literal lower-case
www. prefix, and a path/query or port suffix normalizes to the bare
lower-cased hostname with every decoration removed.  The www. prefix is
stripped only when literally lower-case, because the stripping runs before
the lower-casing, so an upper-case WWW. prefix survives (lower-cased). -/
theorem c4_normalize_decorated (host proto suffix : String) (nslash : ℕ) (www : Bool)
    (hproto : proto = "" ∨ proto = "http://" ∨ proto = "https://")
    (hvalid : isValidDomain (lowerStr host) = true)
    (hwww : www = false → ("www.".data).isPrefixOf host.data = false)
    (hsuffix : suffix.data = [] ∨ (∃ t, suffix.data = '/' :: t) ∨
      (∃ t, suffix.data = ':' :: t)) :
    normalizeDomain
      ⟨proto.data ++ (List.replicate nslash '/' ++ (wwwDeco www ++ (host.data ++ suffix.data)))⟩
      = Except.ok (lowerStr host) := by
  have hA : ∀ c ∈ host.data,
      isAlnumCI (Char.toLower c) = true ∨ Char.toLower c = '-' ∨ Char.toLower c = '.' := by
    intro c hc
    exact valid_chars _ hvalid _ (List.mem_map_of_mem Char.toLower hc)
  have hprops : ∀ c ∈ host.data, c ≠ '/' ∧ c ≠ ':' ∧ c.isWhitespace = false :=
    fun c hc => hostCharProps c (hA c hc)
  have hdotm : '.' ∈ host.data.map Char.toLower := valid_has_dot _ hvalid
  have hne : host.data ≠ [] := by
    intro h0
    rw [h0] at hdotm
    exact absurd hdotm (by simp)
  have hdotEx : ∃ c ∈ host.data, Char.toLower c = '.' := by
    obtain ⟨c, hc, he⟩ := List.mem_map.mp hdotm
    exact ⟨c, hc, he⟩
  have hcolon : ':' ∉ host.data := fun hc => (hprops ':' hc).2.1 rfl
  have hwsL : ∀ c ∈ host.data.map Char.toLower, c.isWhitespace = false := by
    intro c' hc'
    obtain ⟨c, hc, rfl⟩ := List.mem_map.mp hc'
    rcases hA c hc with h | h | h
    · exact alnumCI_not_ws _ h
    · rw [h]; decide
    · rw [h]; decide
  rcases hproto with rfl | rfl | rfl
  · refine normalizeDomain_of_data _ nslash www host.data suffix.data ?_ hprops hne hwsL
      hwww hsuffix hvalid
    have hd : (⟨"".data ++
        (List.replicate nslash '/' ++ (wwwDeco www ++ (host.data ++ suffix.data)))⟩ :
          String).data =
        List.replicate nslash '/' ++ (wwwDeco www ++ (host.data ++ suffix.data)) := rfl
    rw [hd]
    cases nslash with
    | succ n =>
        rw [List.replicate_succ]
        have h1 : ("https://".data).isPrefixOf
            ('/' :: (List.replicate n '/' ++ (wwwDeco www ++ (host.data ++ suffix.data)))) =
            false := isPrefixOf_cons_false (by decide) _ _
        have h2 : ("http://".data).isPrefixOf
            ('/' :: (List.replicate n '/' ++ (wwwDeco www ++ (host.data ++ suffix.data)))) =
            false := isPrefixOf_cons_false (by decide) _ _
        rw [if_neg (by simp [h1]), if_neg (by simp [h2])]
    | zero =>
        rw [List.replicate_zero, List.nil_append]
        cases www
        · simp only [wwwDeco, List.nil_append]
          have h1 : ("https://".data).isPrefixOf (host.data ++ suffix.data) = false :=
            not_proto_isPrefixOf _ _ _ hdotEx hcolon (by decide) (by decide)
          have h2 : ("http://".data).isPrefixOf (host.data ++ suffix.data) = false :=
            not_proto_isPrefixOf _ _ _ hdotEx hcolon (by decide) (by decide)
          rw [if_neg (by simp [h1]), if_neg (by simp [h2])]
        · simp only [wwwDeco]
          have h1 : ("https://".data).isPrefixOf
              ('w' :: ("ww.".data ++ (host.data ++ suffix.data))) = false :=
            isPrefixOf_cons_false (by decide) _ _
          have h2 : ("http://".data).isPrefixOf
              ('w' :: ("ww.".data ++ (host.data ++ suffix.data))) = false :=
            isPrefixOf_cons_false (by decide) _ _
          rw [if_neg (by simp [h1]), if_neg (by simp [h2])]
  · refine normalizeDomain_of_data _ nslash www host.data suffix.data ?_ hprops hne hwsL
      hwww hsuffix hvalid
    have hd : (⟨"http://".data ++
        (List.replicate nslash '/' ++ (wwwDeco www ++ (host.data ++ suffix.data)))⟩ :
          String).data =
        "http://".data ++
          (List.replicate nslash '/' ++ (wwwDeco www ++ (host.data ++ suffix.data))) := rfl
    rw [hd]
    have h1 : ("https://".data).isPrefixOf ("http://".data ++
        (List.replicate nslash '/' ++ (wwwDeco www ++ (host.data ++ suffix.data)))) = false :=
      rfl
    have h2 : ("http://".data).isPrefixOf ("http://".data ++
        (List.replicate nslash '/' ++ (wwwDeco www ++ (host.data ++ suffix.data)))) = true := by
      simp
    rw [if_neg (by simp [h1]), if_pos h2]
    exact List.drop_left' (by decide)
  · refine normalizeDomain_of_data _ nslash www host.data suffix.data ?_ hprops hne hwsL
      hwww hsuffix hvalid
    have hd : (⟨"https://".data ++
        (List.replicate nslash '/' ++ (wwwDeco www ++ (host.data ++ suffix.data)))⟩ :
          String).data =
        "https://".data ++
          (List.replicate nslash '/' ++ (wwwDeco www ++ (host.data ++ suffix.data))) := rfl
    rw [hd]
    have h1 : ("https://".data).isPrefixOf ("https://".data ++
        (List.replicate nslash '/' ++ (wwwDeco www ++ (host.data ++ suffix.data)))) = true := by
      simp
    rw [if_pos h1]
    exact List.drop_left' (by decide)

/-- Claim C4 (counterexample): the claim as stated fails for an upper-case
WWW. prefix: stripping runs before lower-casing and is case-sensitive, so
the prefix survives into the result instead of being removed. -/
theorem c4_counterexample :
    normalizeDomain "https://WWW.Shop.com/foo?x=1" = Except.ok "www.shop.com" ∧
    "www.shop.com" ≠ "shop.com" := by
  decide

/-- Claim C4 witness: the lower-case decorated example normalizes to the
bare lower-case hostname. -/
theorem c4_witness : normalizeDomain "https://www.Shop.com/foo?x=1" = Except.ok "shop.com" := by
  have h := c4_normalize_decorated "Shop.com" "https://" "/foo?x=1" 0 true
    (Or.inr (Or.inr rfl)) (by decide) (by intro hf; exact Bool.noConfusion hf)
    (Or.inr (Or.inl ⟨"foo?x=1".data, by decide⟩))
  have e1 : (⟨"https://".data ++ (List.replicate 0 '/' ++
      (wwwDeco true ++ ("Shop.com".data ++ "/foo?x=1".data)))⟩ : String) =
      "https://www.Shop.com/foo?x=1" := by decide
  have e2 : lowerStr "Shop.com" = "shop.com" := by decide
  rw [e1, e2] at h
  exact h
